import Mathlib

/-!
# The external-reference bridge of therubyracer (`ext/v8/external.h`)

A shallow embedding of `rr::External::Container` and of the weak callback
`rr::External::release`, together with the properties of the two-phase
finalization protocol that the callback implements.

Memory is explicit: containers and handle objects live in heaps indexed by
addresses, a freed or never allocated cell is `none`, and an access through a
dangling or unassigned pointer makes the operation fail (`none`), which is how
undefined behaviour of the C++ code shows up in the model.  Every memory or
engine operation the callback performs is appended to a trace, so that the
order of the operations can be stated.
-/

namespace rr

/-- A Ruby `VALUE`: a pointer sized word naming a host object. -/
abbrev VALUE := Nat

/-- An address: of a container, a handle object, an external value or an
engine instance (`v8::Isolate*`). -/
abbrev Addr := Nat

/-- Point update of a heap. -/
def update {α : Type} (heap : Addr → Option α) (a : Addr) (v : Option α) : Addr → Option α :=
  fun x => if x = a then v else heap x

/-- The functions that can be handed to the engine as weak callbacks.  The header
defines one, `External::release`, and `&release` is the only function pointer it
passes to the engine. -/
inductive Callback where
  | release
deriving DecidableEq, Repr

/-- What the callback does, in the order it does it. -/
inductive Event where
  /-- The engine calls a weak callback with this parameter and this `IsFirstPass()`. -/
  | invoke (parameter : Addr) (firstPass : Bool)
  /-- Read of `container->global`. -/
  | loadGlobal (container : Addr)
  /-- Read of `container->object`. -/
  | loadObject (container : Addr)
  /-- Call of `Reset()` on the handle object at this address. -/
  | reset (global : Addr)
  /-- Call of `SetSecondPassCallback` on the notification of this parameter. -/
  | setSecondPassCallback (parameter : Addr) (callback : Callback)
  /-- Call of `scheduleReleaseObject` on this engine instance with this object. -/
  | scheduleReleaseObject (isolate : Addr) (object : VALUE)
  /-- The expression `delete container`. -/
  | delete (container : Addr)
deriving DecidableEq, Repr

end rr

namespace v8

/-- A `v8::Global<v8::External>` handle object: the external value it refers to,
`none` when the handle is empty. -/
structure Global where
  val : Option rr.Addr
deriving DecidableEq, Repr

/-- The notification context `v8::WeakCallbackInfo<Container>` handed to a weak
callback.  Modelled from the spec: the class belongs to the engine and is not part
of the source; the spec lists its accessors `GetParameter()`, `IsFirstPass()` and
the mutator `SetSecondPassCallback(callbackFn)`, and the callback also reads
`GetIsolate()`.  `secondPassCallback` is the slot the mutator writes. -/
structure WeakCallbackInfo where
  isolate : rr.Addr
  parameter : rr.Addr
  firstPass : Bool
  secondPassCallback : Option rr.Callback
deriving DecidableEq, Repr

end v8

namespace rr

namespace External

/-- The record `struct Container { v8::Global<v8::External>* global; VALUE object; }`.
The raw pointer `global` is `none` as long as nothing has been assigned to it. -/
structure Container where
  global : Option Addr
  object : VALUE
deriving DecidableEq, Repr

set_option linter.dupNamespace false in
/-- The constructor `Container(VALUE v) : object(v) {}`: it initialises `object` and
nothing else, so `global` is left unassigned. -/
def Container.Container (v : VALUE) : Container :=
  { global := none, object := v }

end External

/-- The state the callback runs in. -/
structure World where
  /-- The heap of `Container` records; `none` is a cell that is not allocated. -/
  containers : Addr → Option External.Container
  /-- The heap of `v8::Global` handle objects. -/
  globals : Addr → Option v8.Global
  /-- The external values of the engine heap, each with its payload. -/
  externals : Addr → Option VALUE
  /-- For each engine instance, the objects handed to `scheduleReleaseObject`, oldest first. -/
  releaseQueue : Addr → List VALUE
  /-- The next address the allocator hands out. -/
  next : Addr
  /-- The operations performed so far, oldest first. -/
  trace : List Event

/-- Append an operation to the trace. -/
def World.emit (e : Event) (w : World) : World :=
  { w with trace := w.trace ++ [e] }

end rr

namespace v8

open rr

/-- The accessor `info.GetParameter()`. -/
def WeakCallbackInfo.GetParameter (info : WeakCallbackInfo) : Addr := info.parameter

/-- The accessor `info.GetIsolate()`. -/
def WeakCallbackInfo.GetIsolate (info : WeakCallbackInfo) : Addr := info.isolate

/-- The accessor `info.IsFirstPass()`. -/
def WeakCallbackInfo.IsFirstPass (info : WeakCallbackInfo) : Bool := info.firstPass

/-- The mutator `info.SetSecondPassCallback(callback)`: stores the callback in the
slot of the notification context. -/
def WeakCallbackInfo.SetSecondPassCallback (info : WeakCallbackInfo) (callback : Callback)
    (w : World) : WeakCallbackInfo × World :=
  ({ info with secondPassCallback := some callback },
   w.emit (Event.setSecondPassCallback info.parameter callback))

/-- The call `global->Reset()`.  Modelled from the spec: the handle class belongs to
the engine; resetting "clears the weak handle", leaving it empty, and an already
empty handle stays empty.  The handle object itself must be allocated. -/
def Global.Reset (global : Addr) (w : World) : Option World :=
  match w.globals global with
  | none => none
  | some _ =>
    some ({ w with globals := update w.globals global (some { val := none }) }.emit
      (Event.reset global))

end v8

namespace rr

/-- The call `isolate.scheduleReleaseObject(object)`.  Modelled from the spec: the
class `rr::Isolate` is not part of the source; the operation "accepts ownership of a
host-object reference" and queues it on "a queue/inbox on the engine-instance
collaborator", without return value and without releasing anything inline. -/
def Isolate.scheduleReleaseObject (isolate : Addr) (object : VALUE) (w : World) : World :=
  { w with releaseQueue := fun i =>
      if i = isolate then w.releaseQueue i ++ [object] else w.releaseQueue i }.emit
    (Event.scheduleReleaseObject isolate object)

namespace External

/-- The read `container->global`: fails on a freed container and on a pointer
that was never assigned. -/
def Container.loadGlobal (container : Addr) (w : World) : Option (Addr × World) :=
  match w.containers container with
  | none => none
  | some k =>
    match k.global with
    | none => none
    | some g => some (g, w.emit (Event.loadGlobal container))

/-- The read `container->object`: fails on a freed container. -/
def Container.loadObject (container : Addr) (w : World) : Option (VALUE × World) :=
  match w.containers container with
  | none => none
  | some k => some (k.object, w.emit (Event.loadObject container))

/-- The expression `delete container`: frees the record, and nothing else since
`Container` declares no destructor; fails on a record that is not allocated. -/
def Container.delete (container : Addr) (w : World) : Option World :=
  match w.containers container with
  | none => none
  | some _ =>
    some ({ w with containers := update w.containers container none }.emit
      (Event.delete container))

/-- The weak callback `External::release`:
```
Container* container(info.GetParameter());
if (info.IsFirstPass()) {
  container->global->Reset();
  info.SetSecondPassCallback(&release);
} else {
  Isolate isolate(info.GetIsolate());
  isolate.scheduleReleaseObject(container->object);
  delete container;
}
```
It returns the notification context and the state it leaves behind. -/
def release (info : v8.WeakCallbackInfo) (w : World) : Option (v8.WeakCallbackInfo × World) :=
  let container := info.GetParameter
  if info.IsFirstPass then do
    let (global, w) ← Container.loadGlobal container w
    let w ← v8.Global.Reset global w
    pure (info.SetSecondPassCallback Callback.release w)
  else do
    let isolate := info.GetIsolate
    let (object, w) ← Container.loadObject container w
    let w := Isolate.scheduleReleaseObject isolate object w
    let w ← Container.delete container w
    pure (info, w)

end External

/-- The function a callback pointer designates. -/
def Callback.call : Callback → v8.WeakCallbackInfo → World → Option (v8.WeakCallbackInfo × World)
  | Callback.release => External.release

end rr

namespace v8

open rr

/-- The collector's record of one weak registration.  Modelled from the spec: the
collector belongs to the engine; per the spec `Register(weakHandle, callbackParam,
callbackFn)` installs a two-phase notification whose callback is invoked first with
"first pass" context and then again with "second pass" context and the same
parameter.  `firstPass` is the callback armed for the first pass, `secondPass` the
one registered through `SetSecondPassCallback`. -/
structure Registration where
  isolate : Addr
  weakHandle : Addr
  parameter : Addr
  firstPass : Option Callback
  secondPass : Option Callback
deriving DecidableEq, Repr

/-- Modelled from the spec: `Register(weakHandle, callbackParam, callbackFn)`; a fresh
registration has only its first-pass callback armed. -/
def Register (isolate weakHandle callbackParam : Addr) (callbackFn : Callback) : Registration :=
  { isolate := isolate, weakHandle := weakHandle, parameter := callbackParam,
    firstPass := some callbackFn, secondPass := none }

/-- Modelled from the spec: one move of the collector on a registration.  An armed
first-pass callback is invoked with `IsFirstPass()` true and an empty second-pass
slot, and what the callback stored in the slot becomes the pending second pass;
otherwise a pending second-pass callback is invoked with `IsFirstPass()` false;
otherwise nothing is invoked and nothing changes. -/
def Registration.step (r : Registration) (w : World) : Option (Registration × World) :=
  match r.firstPass with
  | some callback => do
    let info : WeakCallbackInfo :=
      { isolate := r.isolate, parameter := r.parameter, firstPass := true,
        secondPassCallback := none }
    let (info, w) ← callback.call info (w.emit (Event.invoke r.parameter true))
    pure ({ r with firstPass := none, secondPass := info.secondPassCallback }, w)
  | none =>
    match r.secondPass with
    | some callback => do
      let info : WeakCallbackInfo :=
        { isolate := r.isolate, parameter := r.parameter, firstPass := false,
          secondPassCallback := none }
      let (info, w) ← callback.call info (w.emit (Event.invoke r.parameter false))
      pure ({ r with secondPass := info.secondPassCallback }, w)
    | none => some (r, w)

/-- The collector moving `n` times on one registration. -/
def Registration.run : Nat → Registration → World → Option (Registration × World)
  | 0, r, w => some (r, w)
  | n + 1, r, w => do
    let (r, w) ← r.step w
    Registration.run n r w

/-- The collector working on two registrations in the order a schedule gives:
`true` moves the first registration, `false` the second. -/
def runSchedule : List Bool → Registration → Registration → World →
    Option (Registration × Registration × World)
  | [], rA, rB, w => some (rA, rB, w)
  | true :: rest, rA, rB, w => do
    let (rA, w) ← rA.step w
    runSchedule rest rA rB w
  | false :: rest, rA, rB, w => do
    let (rB, w) ← rB.step w
    runSchedule rest rA rB w

/-- The states of the two-phase finalization protocol. -/
inductive Phase where
  | Armed
  | FirstPassDone
  | Released
deriving DecidableEq, Repr

/-- The phase a registration is in: armed while its first pass is to come, first
pass done while a second pass is pending, released after that. -/
def Registration.phase (r : Registration) : Phase :=
  match r.firstPass, r.secondPass with
  | some _, _ => Phase.Armed
  | none, some _ => Phase.FirstPassDone
  | none, none => Phase.Released

end v8

namespace rr

/-- The operations of `w2` that were performed after `w1`. -/
def World.since (w1 w2 : World) : List Event :=
  w2.trace.drop w1.trace.length

/-- The `IsFirstPass()` values of the invocations a trace holds for one parameter. -/
def invocations (parameter : Addr) (t : List Event) : List Bool :=
  t.filterMap fun e =>
    match e with
    | Event.invoke p b => if p = parameter then some b else none
    | _ => none

/-- The calls of `scheduleReleaseObject` in a trace: engine instance and argument. -/
def scheduled (t : List Event) : List (Addr × VALUE) :=
  t.filterMap fun e =>
    match e with
    | Event.scheduleReleaseObject i o => some (i, o)
    | _ => none

/-- The containers deleted in a trace. -/
def deleted (t : List Event) : List Addr :=
  t.filterMap fun e =>
    match e with
    | Event.delete c => some c
    | _ => none

/-- The handle objects reset in a trace. -/
def resets (t : List Event) : List Addr :=
  t.filterMap fun e =>
    match e with
    | Event.reset g => some g
    | _ => none

/-- The external handle the binding layer works with: an external value and the
engine instance it lives in (the base `Ref<v8::External>` of `External`). -/
structure Ref where
  isolate : Addr
  handle : Addr
deriving DecidableEq, Repr

namespace External

/-- Modelled from the spec: the body of `External::New` is not part of the source.
Per the spec, Wrap "allocates an external value in the engine instance's heap,
constructs a ReleaseContainer holding a weak handle to that value and a reference
to hostObject, registers the two-phase finalization callback with the container as
parameter, and returns an ExternalRef wrapping the new value", whose payload is the
host object reference. -/
def New (isolate : Addr) (object : VALUE) (w : World) : Ref × v8.Registration × World :=
  let external := w.next
  let container := w.next + 1
  let global := w.next + 2
  ({ isolate := isolate, handle := external },
   v8.Register isolate global container Callback.release,
   { w with
     externals := update w.externals external (some object),
     containers := update w.containers container
       (some { Container.Container object with global := some global }),
     globals := update w.globals global (some { val := some external }),
     next := w.next + 3 })

/-- Modelled from the spec: the body of `External::Value` is not part of the source.
Per the spec, Unwrap "returns the host-language object reference stored in the
external value's payload", is a "pure accessor" with "no side effects", and fails
on a value that is no longer there. -/
def Value (self : Ref) (w : World) : Option VALUE :=
  w.externals self.handle

end External

/-- The state a first pass on container `c` with handle `g` leaves behind. -/
def afterFirstPass (c g : Addr) (w : World) : World :=
  { w with
    globals := update w.globals g (some { val := none }),
    trace := w.trace ++ [Event.loadGlobal c, Event.reset g,
      Event.setSecondPassCallback c Callback.release] }

/-- The state a second pass on container `c` holding object `o`, notified for the
engine instance `i`, leaves behind. -/
def afterSecondPass (i c : Addr) (o : VALUE) (w : World) : World :=
  { w with
    containers := update w.containers c none,
    releaseQueue := fun j => if j = i then w.releaseQueue j ++ [o] else w.releaseQueue j,
    trace := w.trace ++ [Event.loadObject c, Event.scheduleReleaseObject i o,
      Event.delete c] }

/-- The phase the protocol prescribes after the collector has moved `n` times on a
fresh registration: `Armed`, then `FirstPassDone`, then `Released` for good. -/
def phaseAfter : Nat → v8.Phase
  | 0 => v8.Phase.Armed
  | 1 => v8.Phase.FirstPassDone
  | _ => v8.Phase.Released

/-- One container under finalization: the engine instance it is registered for, the
address of its handle object, its own address, the record and the handle object found
there before the collector starts. -/
structure Party where
  isolate : Addr
  global : Addr
  container : Addr
  record : External.Container
  handle : v8.Global

/-- The registration of a party after the collector has moved `n` times on it. -/
def Party.registration (p : Party) : Nat → v8.Registration
  | 0 => v8.Register p.isolate p.global p.container Callback.release
  | 1 => { isolate := p.isolate, weakHandle := p.global, parameter := p.container,
           firstPass := none, secondPass := some Callback.release }
  | _ => { isolate := p.isolate, weakHandle := p.global, parameter := p.container,
           firstPass := none, secondPass := none }

/-- The calls of `scheduleReleaseObject` made for a party after `n` moves. -/
def Party.sched (p : Party) (n : Nat) : List (Addr × VALUE) :=
  if 2 ≤ n then [(p.isolate, p.record.object)] else []

/-- What a party has added to the release queue of engine instance `i` after `n` moves. -/
def Party.queued (p : Party) (n : Nat) (i : Addr) : List VALUE :=
  if 2 ≤ n ∧ i = p.isolate then [p.record.object] else []

/-- The deletions made for a party after `n` moves. -/
def Party.del (p : Party) (n : Nat) : List Addr :=
  if 2 ≤ n then [p.container] else []

/-- The state `w` reached from `w0` when the collector has moved `pa` times on party
`A` and `pb` times on party `B`, in any order. -/
structure Progress (A B : Party) (pa pb : Nat) (w0 w : World) : Prop where
  contA : w.containers A.container = if 2 ≤ pa then none else some A.record
  contB : w.containers B.container = if 2 ≤ pb then none else some B.record
  contO : ∀ x, x ≠ A.container → x ≠ B.container → w.containers x = w0.containers x
  globA : w.globals A.global = if 1 ≤ pa then some { val := none } else some A.handle
  globB : w.globals B.global = if 1 ≤ pb then some { val := none } else some B.handle
  globO : ∀ x, x ≠ A.global → x ≠ B.global → w.globals x = w0.globals x
  exts : w.externals = w0.externals
  nxt : w.next = w0.next
  queue : ∀ i, (w.releaseQueue i).Perm (w0.releaseQueue i ++ (A.queued pa i ++ B.queued pb i))
  trace : ∃ evs, w.trace = w0.trace ++ evs ∧
    invocations A.container evs = List.take pa [true, false] ∧
    invocations B.container evs = List.take pb [true, false] ∧
    (scheduled evs).Perm (A.sched pa ++ B.sched pb) ∧
    (deleted evs).Perm (A.del pa ++ B.del pb)

/-- A small state: the container at address 1 was built for the host object 77 and
points to the handle object at address 2, which refers to the external value at
address 0. -/
def World.sample : World :=
  { containers := update (fun _ => none) 1 (some { global := some 2, object := 77 }),
    globals := update (fun _ => none) 2 (some { val := some 0 }),
    externals := update (fun _ => none) 0 (some 77),
    releaseQueue := fun _ => [], next := 3, trace := [] }

/-- The sample state with its handle object already reset. -/
def World.sampleReset : World :=
  { World.sample with globals := update (fun _ => none) 2 (some { val := none }) }

/-- A state with two containers: the one of the sample state, and a container at
address 4 built for the host object 88, pointing to the handle object at address 5. -/
def World.sampleTwo : World :=
  { World.sample with
    containers := update World.sample.containers 4 (some { global := some 5, object := 88 }),
    globals := update World.sample.globals 5 (some { val := some 3 }),
    externals := update World.sample.externals 3 (some 88),
    next := 6 }

/-- The first container of the two-container state, registered for engine instance 9. -/
def sampleA : Party :=
  { isolate := 9, global := 2, container := 1, record := { global := some 2, object := 77 },
    handle := { val := some 0 } }

/-- The second container of the two-container state, registered for engine instance 9. -/
def sampleB : Party :=
  { isolate := 9, global := 5, container := 4, record := { global := some 5, object := 88 },
    handle := { val := some 3 } }

/-- A first-pass notification for the container of the sample state, from engine instance 9. -/
def sampleFirst : v8.WeakCallbackInfo :=
  { isolate := 9, parameter := 1, firstPass := true, secondPassCallback := none }

/-- A second-pass notification for the container of the sample state, from engine instance 9. -/
def sampleSecond : v8.WeakCallbackInfo :=
  { isolate := 9, parameter := 1, firstPass := false, secondPassCallback := none }

end rr

/-! ## What one invocation of the callback does -/

namespace rr

open External

theorem World.since_append (w w2 : World) (evs : List Event)
    (h : w2.trace = w.trace ++ evs) : World.since w w2 = evs := by
  simp [World.since, h]

theorem release_first (info : v8.WeakCallbackInfo) (w : World) (k : Container) (g : Addr)
    (h : v8.Global) (hpass : info.firstPass = true)
    (hk : w.containers info.parameter = some k) (hg : k.global = some g)
    (hh : w.globals g = some h) :
    release info w = some ({ info with secondPassCallback := some Callback.release },
      afterFirstPass info.parameter g w) := by
  simp [release, v8.WeakCallbackInfo.IsFirstPass, v8.WeakCallbackInfo.GetParameter, hpass,
    Container.loadGlobal, hk, hg, v8.Global.Reset, World.emit, hh,
    v8.WeakCallbackInfo.SetSecondPassCallback, afterFirstPass]

theorem release_second (info : v8.WeakCallbackInfo) (w : World) (k : Container)
    (hpass : info.firstPass = false) (hk : w.containers info.parameter = some k) :
    release info w = some (info, afterSecondPass info.isolate info.parameter k.object w) := by
  simp [release, v8.WeakCallbackInfo.IsFirstPass, v8.WeakCallbackInfo.GetParameter, hpass,
    v8.WeakCallbackInfo.GetIsolate, Container.loadObject, hk, Isolate.scheduleReleaseObject,
    Container.delete, World.emit, afterSecondPass]

/-- A first pass that returns found an allocated container with an assigned pointer
to an allocated handle object. -/
theorem release_first_inv (info info2 : v8.WeakCallbackInfo) (w w2 : World)
    (hpass : info.firstPass = true) (hr : release info w = some (info2, w2)) :
    ∃ k g h, w.containers info.parameter = some k ∧ k.global = some g ∧
      w.globals g = some h ∧ w2 = afterFirstPass info.parameter g w := by
  cases hk : w.containers info.parameter with
  | none =>
    simp [release, v8.WeakCallbackInfo.IsFirstPass, v8.WeakCallbackInfo.GetParameter, hpass,
      Container.loadGlobal, hk] at hr
  | some k =>
    cases hg : k.global with
    | none =>
      simp [release, v8.WeakCallbackInfo.IsFirstPass, v8.WeakCallbackInfo.GetParameter,
        hpass, Container.loadGlobal, hk, hg] at hr
    | some g =>
      cases hh : w.globals g with
      | none =>
        simp [release, v8.WeakCallbackInfo.IsFirstPass, v8.WeakCallbackInfo.GetParameter,
          hpass, Container.loadGlobal, hk, hg, v8.Global.Reset, World.emit, hh] at hr
      | some h =>
        rw [release_first info w k g h hpass hk hg hh] at hr
        simp only [Option.some.injEq, Prod.mk.injEq] at hr
        exact ⟨k, g, h, rfl, hg, hh, hr.2.symm⟩

/-- A second pass that returns found an allocated container. -/
theorem release_second_inv (info info2 : v8.WeakCallbackInfo) (w w2 : World)
    (hpass : info.firstPass = false) (hr : release info w = some (info2, w2)) :
    ∃ k, w.containers info.parameter = some k ∧
      w2 = afterSecondPass info.isolate info.parameter k.object w := by
  cases hk : w.containers info.parameter with
  | none =>
    simp [release, v8.WeakCallbackInfo.IsFirstPass, v8.WeakCallbackInfo.GetParameter, hpass,
      Container.loadObject, hk] at hr
  | some k =>
    rw [release_second info w k hpass hk] at hr
    simp only [Option.some.injEq, Prod.mk.injEq] at hr
    exact ⟨k, rfl, hr.2.symm⟩

end rr

/-! ## The two transitions -/

namespace rr

open External

/-- C2: first-pass transition.  An invocation of `External::release` with
`IsFirstPass()` true, on an allocated container whose `global` points to an allocated
handle object, returns; it has reset that handle, which is empty afterwards, and has
stored `External::release` itself, the function the callback pointer designates, in
the second-pass slot of the notification context.  Its operations are the read of
`container->global`, the reset and the registration, in this order. -/
theorem release_first_pass_transition (info : v8.WeakCallbackInfo) (w : World)
    (k : Container) (g : Addr) (h : v8.Global)
    (hpass : info.IsFirstPass = true)
    (hk : w.containers info.GetParameter = some k) (hg : k.global = some g)
    (hh : w.globals g = some h) :
    ∃ info2 w2, release info w = some (info2, w2) ∧
      w2.globals g = some { val := none } ∧
      info2.secondPassCallback = some Callback.release ∧
      Callback.call Callback.release = release ∧
      World.since w w2 = [Event.loadGlobal info.GetParameter, Event.reset g,
        Event.setSecondPassCallback info.GetParameter Callback.release] := by
  refine ⟨_, _, release_first info w k g h hpass hk hg hh, ?_, rfl, rfl, ?_⟩
  · simp [afterFirstPass, update]
  · exact World.since_append _ _ _ rfl

theorem release_first_pass_transition_witness :
    sampleFirst.IsFirstPass = true ∧
    World.sample.containers sampleFirst.GetParameter = some { global := some 2, object := 77 } ∧
    World.sample.globals 2 = some { val := some 0 } ∧
    ∃ info2 w2, release sampleFirst World.sample = some (info2, w2) ∧
      w2.globals 2 = some { val := none } ∧
      info2.secondPassCallback = some Callback.release ∧
      Callback.call Callback.release = release ∧
      World.since World.sample w2 = [Event.loadGlobal sampleFirst.GetParameter, Event.reset 2,
        Event.setSecondPassCallback sampleFirst.GetParameter Callback.release] :=
  ⟨rfl, rfl, rfl,
    release_first_pass_transition sampleFirst World.sample { global := some 2, object := 77 } 2
      { val := some 0 } rfl rfl rfl rfl⟩

/-- C3: second-pass transition.  An invocation of `External::release` with
`IsFirstPass()` false on an allocated container returns; its operations are, in this
order, the read of `container->object`, the call of `scheduleReleaseObject` on the
engine instance `info.GetIsolate()` with the object read, and `delete container`,
which is the last operation: the container is read before it is deleted and not
touched afterwards.  The object is queued on that engine instance and the container
is no longer allocated. -/
theorem release_second_pass_transition (info : v8.WeakCallbackInfo) (w : World)
    (k : Container) (hpass : info.IsFirstPass = false)
    (hk : w.containers info.GetParameter = some k) :
    ∃ w2, release info w = some (info, w2) ∧
      World.since w w2 = [Event.loadObject info.GetParameter,
        Event.scheduleReleaseObject info.GetIsolate k.object,
        Event.delete info.GetParameter] ∧
      w2.releaseQueue info.GetIsolate = w.releaseQueue info.GetIsolate ++ [k.object] ∧
      w2.containers info.GetParameter = none := by
  refine ⟨_, release_second info w k hpass hk, World.since_append _ _ _ rfl, ?_, ?_⟩
  · simp [afterSecondPass, v8.WeakCallbackInfo.GetIsolate]
  · simp [afterSecondPass, update, v8.WeakCallbackInfo.GetParameter]

theorem release_second_pass_transition_witness :
    sampleSecond.IsFirstPass = false ∧
    World.sample.containers sampleSecond.GetParameter = some { global := some 2, object := 77 } ∧
    ∃ w2, release sampleSecond World.sample = some (sampleSecond, w2) ∧
      World.since World.sample w2 = [Event.loadObject sampleSecond.GetParameter,
        Event.scheduleReleaseObject sampleSecond.GetIsolate 77,
        Event.delete sampleSecond.GetParameter] ∧
      w2.releaseQueue sampleSecond.GetIsolate =
        World.sample.releaseQueue sampleSecond.GetIsolate ++ [77] ∧
      w2.containers sampleSecond.GetParameter = none :=
  ⟨rfl, rfl,
    release_second_pass_transition sampleSecond World.sample { global := some 2, object := 77 }
      rfl rfl⟩

end rr

/-! ## The collector's moves on one registration -/

namespace v8

open rr rr.External

theorem Registration.step_first (r : Registration) (w : World) (k : Container) (g : Addr)
    (h : Global) (hf : r.firstPass = some Callback.release)
    (hk : w.containers r.parameter = some k) (hg : k.global = some g)
    (hh : w.globals g = some h) :
    r.step w = some ({ r with firstPass := none, secondPass := some Callback.release },
      afterFirstPass r.parameter g (w.emit (Event.invoke r.parameter true))) := by
  have hrel := release_first
    { isolate := r.isolate, parameter := r.parameter, firstPass := true,
      secondPassCallback := none }
    (w.emit (Event.invoke r.parameter true)) k g h rfl hk hg hh
  simp only [Registration.step, hf, Callback.call]
  rw [hrel]
  rfl

theorem Registration.step_second (r : Registration) (w : World) (k : Container)
    (hf : r.firstPass = none) (hs : r.secondPass = some Callback.release)
    (hk : w.containers r.parameter = some k) :
    r.step w = some ({ r with secondPass := none },
      afterSecondPass r.isolate r.parameter k.object
        (w.emit (Event.invoke r.parameter false))) := by
  have hrel := release_second
    { isolate := r.isolate, parameter := r.parameter, firstPass := false,
      secondPassCallback := none }
    (w.emit (Event.invoke r.parameter false)) k rfl hk
  simp only [Registration.step, hf, hs, Callback.call]
  rw [hrel]
  rfl

theorem Registration.step_idle (r : Registration) (w : World)
    (hf : r.firstPass = none) (hs : r.secondPass = none) :
    r.step w = some (r, w) := by
  simp [Registration.step, hf, hs]

theorem Registration.run_idle (n : Nat) (r : Registration) (w : World)
    (hf : r.firstPass = none) (hs : r.secondPass = none) :
    r.run n w = some (r, w) := by
  induction n with
  | zero => rfl
  | succ n ih => simp [Registration.run, Registration.step_idle r w hf hs, ih]

/-- The state after both passes of a registration on container `c` with handle `g`
and object `o`, for the engine instance `i`. -/
theorem Registration.run_two (i g c : Addr) (w : World) (k : Container) (h : Global)
    (hk : w.containers c = some k) (hg : k.global = some g) (hh : w.globals g = some h)
    (n : Nat) :
    (Register i g c Callback.release).run (n + 2) w =
      some ({ isolate := i, weakHandle := g, parameter := c, firstPass := none,
              secondPass := none },
        afterSecondPass i c k.object
          ((afterFirstPass c g (w.emit (Event.invoke c true))).emit (Event.invoke c false))) := by
  have h1 := Registration.step_first (Register i g c Callback.release) w k g h rfl hk hg hh
  have h2 := Registration.step_second
    { isolate := i, weakHandle := g, parameter := c, firstPass := none,
      secondPass := some Callback.release }
    (afterFirstPass c g (w.emit (Event.invoke c true))) k rfl rfl hk
  simp only [Registration.run]
  rw [h1]
  simp only [Option.bind_eq_bind, Option.some_bind, Register]
  rw [h2]
  simp only [Option.some_bind]
  exact Registration.run_idle n _ _ rfl rfl

end v8

/-! ## Properties of a whole run -/

namespace rr

open External

/-- The operations of a complete run on container `c` with handle `g` and object `o`. -/
theorem since_run_two (i g c : Addr) (o : VALUE) (w : World) :
    World.since w (afterSecondPass i c o
      ((afterFirstPass c g (w.emit (Event.invoke c true))).emit (Event.invoke c false))) =
    [Event.invoke c true, Event.loadGlobal c, Event.reset g,
      Event.setSecondPassCallback c Callback.release, Event.invoke c false,
      Event.loadObject c, Event.scheduleReleaseObject i o, Event.delete c] := by
  apply World.since_append
  simp [afterSecondPass, afterFirstPass, World.emit]

/-- C1: exactly-once release.  Take a container built as `Container(O)` whose `global`
was then pointed to an allocated handle object, registered with `External::release`.
When the collector delivers the callback (first pass, then second pass, then nothing
more however long it keeps running), the run returns, the callback was invoked once
in each pass, `scheduleReleaseObject` was called exactly once, with `O` and on the
engine instance of the registration, and the container was deleted exactly once. -/
theorem exactly_once_release (i g c : Addr) (O : VALUE) (w : World) (h : v8.Global)
    (hk : w.containers c = some { Container.Container O with global := some g })
    (hh : w.globals g = some h) (n : Nat) :
    ∃ r2 w2, (v8.Register i g c Callback.release).run (n + 2) w = some (r2, w2) ∧
      invocations c (World.since w w2) = [true, false] ∧
      scheduled (World.since w w2) = [(i, O)] ∧
      deleted (World.since w w2) = [c] ∧
      w2.releaseQueue i = w.releaseQueue i ++ [O] ∧
      w2.containers c = none := by
  refine ⟨_, _, v8.Registration.run_two i g c w _ h hk rfl hh n, ?_, ?_, ?_, ?_, ?_⟩
  · rw [since_run_two]; simp [invocations]
  · rw [since_run_two]; simp [scheduled, Container.Container]
  · rw [since_run_two]; simp [deleted]
  · simp [afterSecondPass, afterFirstPass, World.emit, Container.Container]
  · simp [afterSecondPass, update]

theorem exactly_once_release_witness :
    World.sample.containers 1 = some { Container.Container 77 with global := some 2 } ∧
    World.sample.globals 2 = some { val := some 0 } ∧
    ∃ r2 w2, (v8.Register 9 2 1 Callback.release).run (3 + 2) World.sample = some (r2, w2) ∧
      invocations 1 (World.since World.sample w2) = [true, false] ∧
      scheduled (World.since World.sample w2) = [(9, 77)] ∧
      deleted (World.since World.sample w2) = [1] ∧
      w2.releaseQueue 9 = World.sample.releaseQueue 9 ++ [77] ∧
      w2.containers 1 = none :=
  ⟨rfl, rfl, exactly_once_release 9 2 1 77 World.sample { val := some 0 } rfl rfl 3⟩

end rr

namespace rr

open External

/-- C6: phase ordering.  The collector invokes a second-pass callback only if one was
registered through `SetSecondPassCallback`, and a fresh registration has only its
first-pass callback armed.  On a container that is allocated and points to an
allocated handle object, every run of the collector returns, and after `n` moves the
registration is in the phase the protocol prescribes (`Armed`, `FirstPassDone`,
`Released`, and `Released` from then on) while the invocations of the callback for
the container are the first `n` of: first pass, second pass.  The container is
allocated in the first two phases and freed in the third, the handle is as it was
in the first phase and empty afterwards.  So the second pass never comes before the
first, no phase is skipped, no transition is taken twice, and after the second pass
no callback is registered any more. -/
theorem phase_ordering (i g c : Addr) (w : World) (k : Container) (h : v8.Global)
    (hk : w.containers c = some k) (hg : k.global = some g) (hh : w.globals g = some h)
    (n : Nat) :
    ∃ r2 w2, (v8.Register i g c Callback.release).run n w = some (r2, w2) ∧
      r2.phase = phaseAfter n ∧
      invocations c (World.since w w2) = List.take n [true, false] ∧
      w2.containers c = (if n < 2 then some k else none) ∧
      w2.globals g = (if n = 0 then some h else some { val := none }) ∧
      (2 ≤ n → r2.firstPass = none ∧ r2.secondPass = none) := by
  match n with
  | 0 =>
    refine ⟨_, _, rfl, rfl, ?_, ?_, ?_, ?_⟩
    · simp [World.since, invocations]
    · simpa using hk
    · simpa using hh
    · intro h2; omega
  | 1 =>
    have h1 := v8.Registration.step_first (v8.Register i g c Callback.release) w k g h rfl
      hk hg hh
    refine ⟨{ isolate := i, weakHandle := g, parameter := c, firstPass := none,
              secondPass := some Callback.release },
      afterFirstPass c g (w.emit (Event.invoke c true)), ?_, ?_, ?_, ?_, ?_, ?_⟩
    · simp only [v8.Registration.run]
      rw [h1]
      rfl
    · rfl
    · have ht : World.since w (afterFirstPass c g (w.emit (Event.invoke c true))) =
          [Event.invoke c true, Event.loadGlobal c, Event.reset g,
            Event.setSecondPassCallback c Callback.release] := by
        apply World.since_append
        simp [afterFirstPass, World.emit]
      rw [ht]
      simp [invocations]
    · simpa [afterFirstPass, World.emit] using hk
    · simp [afterFirstPass, update]
    · intro h2; omega
  | m + 2 =>
    refine ⟨_, _, v8.Registration.run_two i g c w k h hk hg hh m, rfl, ?_, ?_, ?_, ?_⟩
    · rw [since_run_two]; simp [invocations]
    · simp [afterSecondPass, update]
    · simp [afterSecondPass, afterFirstPass, World.emit, update]
    · intro _; exact ⟨rfl, rfl⟩

theorem phase_ordering_witness :
    World.sample.containers 1 = some { global := some 2, object := 77 } ∧
    World.sample.globals 2 = some { val := some 0 } ∧
    ∃ r2 w2, (v8.Register 9 2 1 Callback.release).run 3 World.sample = some (r2, w2) ∧
      r2.phase = phaseAfter 3 ∧
      invocations 1 (World.since World.sample w2) = List.take 3 [true, false] ∧
      w2.containers 1 = (if 3 < 2 then some { global := some 2, object := 77 } else none) ∧
      w2.globals 2 = (if 3 = 0 then some { val := some 0 } else some { val := none }) ∧
      (2 ≤ 3 → r2.firstPass = none ∧ r2.secondPass = none) :=
  ⟨rfl, rfl,
    phase_ordering 9 2 1 World.sample { global := some 2, object := 77 } { val := some 0 }
      rfl rfl rfl 3⟩

end rr

/-! ## Frame of the two passes -/

namespace rr

open External

/-- C5: container lifetime and frame of the first pass.  On an allocated container
whose `global` points to an allocated handle object, the first-pass invocation
returns and changes nothing but the state of that handle object and the second-pass
slot: the heap of containers is the same, so the container is still allocated with
the same `object` and the same `global` pointer, every other handle object, the
external values, the release queues and the allocator are the same, and nothing was
deleted.  A second pass run after it frees the container, and `delete container` is
its last operation. -/
theorem first_pass_frame (info : v8.WeakCallbackInfo) (w : World) (k : Container)
    (g : Addr) (h : v8.Global) (hpass : info.IsFirstPass = true)
    (hk : w.containers info.GetParameter = some k) (hg : k.global = some g)
    (hh : w.globals g = some h) :
    ∃ info2 w2, release info w = some (info2, w2) ∧
      w2.containers = w.containers ∧
      w2.containers info.GetParameter = some k ∧
      (∀ g2, g2 ≠ g → w2.globals g2 = w.globals g2) ∧
      w2.externals = w.externals ∧ w2.releaseQueue = w.releaseQueue ∧ w2.next = w.next ∧
      deleted (World.since w w2) = [] ∧
      ∀ info3 : v8.WeakCallbackInfo, info3.GetParameter = info.GetParameter →
        info3.IsFirstPass = false →
        ∃ w3 evs, release info3 w2 = some (info3, w3) ∧
          w3.containers info.GetParameter = none ∧
          World.since w2 w3 = evs ++ [Event.delete info.GetParameter] ∧
          deleted evs = [] := by
  refine ⟨_, _, release_first info w k g h hpass hk hg hh, rfl, hk, ?_, rfl, rfl, rfl, ?_, ?_⟩
  · intro g2 hne
    simp [afterFirstPass, update, hne]
  · rw [World.since_append w _ _ rfl]
    simp [deleted]
  · intro info3 hpar hsecond
    have hk3 : (afterFirstPass info.parameter g w).containers info3.parameter = some k := by
      rw [show info3.parameter = info.parameter from hpar]
      exact hk
    refine ⟨_, [Event.loadObject info3.parameter,
      Event.scheduleReleaseObject info3.isolate k.object], release_second info3 _ k hsecond hk3,
      ?_, ?_, ?_⟩
    · rw [show info.GetParameter = info3.parameter from hpar.symm]
      simp [afterSecondPass, update]
    · rw [show info.GetParameter = info3.parameter from hpar.symm]
      exact World.since_append _ _ _ rfl
    · simp [deleted]

theorem first_pass_frame_witness :
    sampleFirst.IsFirstPass = true ∧
    World.sample.containers sampleFirst.GetParameter = some { global := some 2, object := 77 } ∧
    World.sample.globals 2 = some { val := some 0 } ∧
    ∃ info2 w2, release sampleFirst World.sample = some (info2, w2) ∧
      w2.containers = World.sample.containers ∧
      w2.containers sampleFirst.GetParameter = some { global := some 2, object := 77 } ∧
      (∀ g2, g2 ≠ 2 → w2.globals g2 = World.sample.globals g2) ∧
      w2.externals = World.sample.externals ∧
      w2.releaseQueue = World.sample.releaseQueue ∧ w2.next = World.sample.next ∧
      deleted (World.since World.sample w2) = [] ∧
      ∀ info3 : v8.WeakCallbackInfo, info3.GetParameter = sampleFirst.GetParameter →
        info3.IsFirstPass = false →
        ∃ w3 evs, release info3 w2 = some (info3, w3) ∧
          w3.containers sampleFirst.GetParameter = none ∧
          World.since w2 w3 = evs ++ [Event.delete sampleFirst.GetParameter] ∧
          deleted evs = [] :=
  ⟨rfl, rfl, rfl,
    first_pass_frame sampleFirst World.sample { global := some 2, object := 77 } 2
      { val := some 0 } rfl rfl rfl rfl⟩

/-- C9: the callback keeps no phase state.  On an allocated container the branch is
chosen by `IsFirstPass()` alone.  With `IsFirstPass()` false the invocation returns,
schedules the release of `container->object` once and frees the container, whatever
the state of the handle object and of the `global` pointer, so also when no first
pass ever reset the handle.  With `IsFirstPass()` true the invocation returns, resets
the handle and registers the callback again, whatever the handle held before, so also
when it was already empty. -/
theorem release_keeps_no_phase_state (info : v8.WeakCallbackInfo) (w : World)
    (k : Container) (hk : w.containers info.GetParameter = some k) :
    (info.IsFirstPass = false →
      ∃ w2, release info w = some (info, w2) ∧
        scheduled (World.since w w2) = [(info.GetIsolate, k.object)] ∧
        deleted (World.since w w2) = [info.GetParameter] ∧
        resets (World.since w w2) = [] ∧
        w2.containers info.GetParameter = none) ∧
    (info.IsFirstPass = true →
      ∀ g h, k.global = some g → w.globals g = some h →
        ∃ info2 w2, release info w = some (info2, w2) ∧
          resets (World.since w w2) = [g] ∧
          scheduled (World.since w w2) = [] ∧
          deleted (World.since w w2) = [] ∧
          w2.globals g = some { val := none } ∧
          info2.secondPassCallback = some Callback.release) := by
  constructor
  · intro hpass
    refine ⟨_, release_second info w k hpass hk, ?_, ?_, ?_, ?_⟩
    · rw [World.since_append w _ _ rfl]; simp [scheduled]; rfl
    · rw [World.since_append w _ _ rfl]; simp [deleted]; rfl
    · rw [World.since_append w _ _ rfl]; simp [resets]
    · simp [afterSecondPass, update, v8.WeakCallbackInfo.GetParameter]
  · intro hpass g h hg hh
    refine ⟨_, _, release_first info w k g h hpass hk hg hh, ?_, ?_, ?_, ?_, rfl⟩
    · rw [World.since_append w _ _ rfl]; simp [resets]
    · rw [World.since_append w _ _ rfl]; simp [scheduled]
    · rw [World.since_append w _ _ rfl]; simp [deleted]
    · simp [afterFirstPass, update]

theorem release_keeps_no_phase_state_witness :
    World.sample.containers sampleSecond.GetParameter = some { global := some 2, object := 77 } ∧
    World.sample.globals 2 = some { val := some 0 } ∧
    (∃ w2, release sampleSecond World.sample = some (sampleSecond, w2) ∧
      scheduled (World.since World.sample w2) = [(sampleSecond.GetIsolate, 77)] ∧
      deleted (World.since World.sample w2) = [sampleSecond.GetParameter] ∧
      resets (World.since World.sample w2) = [] ∧
      w2.containers sampleSecond.GetParameter = none) ∧
    World.sampleReset.containers sampleFirst.GetParameter =
      some { global := some 2, object := 77 } ∧
    World.sampleReset.globals 2 = some { val := none } ∧
    (∃ info2 w2, release sampleFirst World.sampleReset = some (info2, w2) ∧
      resets (World.since World.sampleReset w2) = [2] ∧
      scheduled (World.since World.sampleReset w2) = [] ∧
      deleted (World.since World.sampleReset w2) = [] ∧
      w2.globals 2 = some { val := none } ∧
      info2.secondPassCallback = some Callback.release) :=
  ⟨rfl, rfl,
    (release_keeps_no_phase_state sampleSecond World.sample { global := some 2, object := 77 }
      rfl).1 rfl,
    rfl, rfl,
    (release_keeps_no_phase_state sampleFirst World.sampleReset
      { global := some 2, object := 77 } rfl).2 rfl 2 { val := none } rfl rfl⟩

/-- C10: the second pass frees the `Container` record only.  A second-pass invocation
on an allocated container returns with the heap of handle objects unchanged, the
container cell freed and every other container cell unchanged; it neither reads
`container->global` nor resets a handle.  After a complete first-pass and second-pass
run the handle object the container pointed to is empty but still allocated.  And the
constructor `Container(v)` sets `object` to `v` and leaves `global` unassigned. -/
theorem second_pass_frees_container_only (i g c : Addr) (w : World) (k : Container)
    (h : v8.Global) (hk : w.containers c = some k) (hg : k.global = some g)
    (hh : w.globals g = some h) :
    (∀ info : v8.WeakCallbackInfo, info.GetParameter = c → info.IsFirstPass = false →
      ∃ w2, release info w = some (info, w2) ∧
        w2.globals = w.globals ∧
        w2.containers = update w.containers c none ∧
        resets (World.since w w2) = [] ∧
        Event.loadGlobal c ∉ World.since w w2) ∧
    (∃ r2 w2, (v8.Register i g c Callback.release).run 2 w = some (r2, w2) ∧
      w2.globals g = some { val := none } ∧ w2.containers c = none) ∧
    (∀ v : VALUE, (Container.Container v).object = v ∧ (Container.Container v).global = none) := by
  refine ⟨?_, ⟨_, _, v8.Registration.run_two i g c w k h hk hg hh 0, ?_, ?_⟩, ?_⟩
  · intro info hpar hpass
    have hk2 : w.containers info.parameter = some k := by
      rw [show info.parameter = c from hpar]
      exact hk
    refine ⟨_, release_second info w k hpass hk2, rfl, ?_, ?_, ?_⟩
    · rw [show c = info.parameter from hpar.symm]
      rfl
    · rw [World.since_append w _ _ rfl]; simp [resets]
    · rw [World.since_append w _ _ rfl]; simp
  · simp [afterSecondPass, afterFirstPass, World.emit, update]
  · simp [afterSecondPass, update]
  · intro v
    exact ⟨rfl, rfl⟩

theorem second_pass_frees_container_only_witness :
    World.sample.containers 1 = some { global := some 2, object := 77 } ∧
    World.sample.globals 2 = some { val := some 0 } ∧
    (∃ w2, release sampleSecond World.sample = some (sampleSecond, w2) ∧
        w2.globals = World.sample.globals ∧
        w2.containers = update World.sample.containers 1 none ∧
        resets (World.since World.sample w2) = [] ∧
        Event.loadGlobal 1 ∉ World.since World.sample w2) ∧
    (∃ r2 w2, (v8.Register 9 2 1 Callback.release).run 2 World.sample = some (r2, w2) ∧
      w2.globals 2 = some { val := none } ∧ w2.containers 1 = none) :=
  ⟨rfl, rfl,
    (second_pass_frees_container_only 9 2 1 World.sample { global := some 2, object := 77 }
      { val := some 0 } rfl rfl rfl).1 sampleSecond rfl rfl,
    (second_pass_frees_container_only 9 2 1 World.sample { global := some 2, object := 77 }
      { val := some 0 } rfl rfl rfl).2.1⟩

end rr

/-! ## Sequences of first passes -/

namespace rr

open External

end rr

/-! ## Wrap and unwrap -/

namespace rr

open External

/-- C7: round trip of wrap and unwrap.  For every engine instance, every host object
`O` and every state, the handle `H` returned by `External::New` for `O` unwraps to `O`
in the state `New` leaves behind; `External::Value` is a function of the handle and
the state that returns no new state, so reading changes nothing and every repeated
call returns `O` again; and the first finalization pass of the registration `New`
made, which returns, leaves the payload in place, so `H` still unwraps to `O` as long
as the value has not been collected. -/
theorem wrap_unwrap_round_trip (i : Addr) (O : VALUE) (w : World) :
    Value (New i O w).1 (New i O w).2.2 = some O ∧
    (New i O w).1.isolate = i ∧
    ∃ r1 w1, (New i O w).2.1.step (New i O w).2.2 = some (r1, w1) ∧
      Value (New i O w).1 w1 = some O := by
  refine ⟨by simp [Value, New, update], rfl, ?_⟩
  have hk : (New i O w).2.2.containers (New i O w).2.1.parameter =
      some { Container.Container O with global := some (w.next + 2) } := by
    simp [New, v8.Register, update]
  have hh : (New i O w).2.2.globals (w.next + 2) = some { val := some w.next } := by
    simp [New, update]
  refine ⟨_, _, v8.Registration.step_first (New i O w).2.1 (New i O w).2.2 _ (w.next + 2) _
    rfl hk rfl hh, ?_⟩
  simp [Value, New, update, afterFirstPass, World.emit]

end rr

/-! ## Two containers finalized together -/

namespace rr

open External

theorem Progress.swap {A B : Party} {pa pb : Nat} {w0 w : World}
    (inv : Progress A B pa pb w0 w) : Progress B A pb pa w0 w where
  contA := inv.contB
  contB := inv.contA
  contO := fun x hb ha => inv.contO x ha hb
  globA := inv.globB
  globB := inv.globA
  globO := fun x hb ha => inv.globO x ha hb
  exts := inv.exts
  nxt := inv.nxt
  queue := fun i => (inv.queue i).trans (List.Perm.append_left _ List.perm_append_comm)
  trace := by
    obtain ⟨evs, ht, hia, hib, hs, hd⟩ := inv.trace
    exact ⟨evs, ht, hib, hia, hs.trans List.perm_append_comm, hd.trans List.perm_append_comm⟩

theorem invocations_append (c : Addr) (t1 t2 : List Event) :
    invocations c (t1 ++ t2) = invocations c t1 ++ invocations c t2 := by
  simp [invocations, List.filterMap_append]

theorem scheduled_append (t1 t2 : List Event) :
    scheduled (t1 ++ t2) = scheduled t1 ++ scheduled t2 := by
  simp [scheduled, List.filterMap_append]

theorem deleted_append (t1 t2 : List Event) :
    deleted (t1 ++ t2) = deleted t1 ++ deleted t2 := by
  simp [deleted, List.filterMap_append]

/-- A move of the collector on the first party advances it and leaves the second alone. -/
theorem Progress.stepA {A B : Party} {pa pb : Nat} {w0 w : World}
    (hab : A.container ≠ B.container) (hg : A.global ≠ B.global)
    (hkA : A.record.global = some A.global) (inv : Progress A B pa pb w0 w) :
    ∃ w2, (A.registration pa).step w = some (A.registration (pa + 1), w2) ∧
      Progress A B (pa + 1) pb w0 w2 := by
  obtain ⟨evs, ht, hia, hib, hs, hd⟩ := inv.trace
  match pa, inv, hia, hs, hd with
  | 0, inv, hia, hs, hd =>
    have hk : w.containers A.container = some A.record := by simpa using inv.contA
    have hh : w.globals A.global = some A.handle := by simpa using inv.globA
    refine ⟨_, v8.Registration.step_first (A.registration 0) w A.record A.global A.handle rfl
      hk hkA hh, ?_⟩
    refine ⟨?_, inv.contB, inv.contO, ?_, ?_, ?_, inv.exts, inv.nxt, ?_, ?_⟩
    · simpa using hk
    · simp [afterFirstPass, update, Party.registration, v8.Register]
    · have := inv.globB
      simpa [afterFirstPass, update, Party.registration, v8.Register, World.emit,
        Ne.symm hg] using this
    · intro x hxa hxb
      have := inv.globO x hxa hxb
      simpa [afterFirstPass, update, Party.registration, v8.Register, World.emit, hxa] using this
    · intro i
      simpa [Party.queued] using inv.queue i
    · refine ⟨evs ++ [Event.invoke A.container true, Event.loadGlobal A.container,
        Event.reset A.global, Event.setSecondPassCallback A.container Callback.release],
        ?_, ?_, ?_, ?_, ?_⟩
      · simp [afterFirstPass, World.emit, ht, Party.registration, v8.Register]
      · rw [invocations_append, hia]
        simp [invocations]
      · rw [invocations_append, hib]
        simp [invocations, hab]
      · rw [scheduled_append]
        simpa [scheduled, Party.sched] using hs
      · rw [deleted_append]
        simpa [deleted, Party.del] using hd
  | 1, inv, hia, hs, hd =>
    have hk : w.containers A.container = some A.record := by simpa using inv.contA
    refine ⟨_, v8.Registration.step_second (A.registration 1) w A.record rfl rfl hk, ?_⟩
    refine ⟨?_, ?_, ?_, ?_, inv.globB, inv.globO, inv.exts, inv.nxt, ?_, ?_⟩
    · simp [afterSecondPass, update, Party.registration]
    · have := inv.contB
      simpa [afterSecondPass, update, Party.registration, World.emit, Ne.symm hab] using this
    · intro x hxa hxb
      have := inv.contO x hxa hxb
      simpa [afterSecondPass, update, Party.registration, World.emit, hxa] using this
    · simpa using inv.globA
    · intro i
      have hq := inv.queue i
      simp only [Party.queued] at hq ⊢
      by_cases hi : i = A.isolate
      · subst hi
        simp only [afterSecondPass, World.emit, Party.registration, if_true]
        simp only [Nat.not_succ_le_self, false_and, if_false, List.nil_append,
          Nat.le_refl, true_and, if_true] at hq ⊢
        have h1 := List.Perm.append_right [A.record.object] hq
        refine h1.trans ?_
        rw [List.append_assoc]
        exact List.Perm.append_left _ List.perm_append_comm
      · simpa [afterSecondPass, World.emit, Party.registration, hi] using hq
    · refine ⟨evs ++ [Event.invoke A.container false, Event.loadObject A.container,
        Event.scheduleReleaseObject A.isolate A.record.object, Event.delete A.container],
        ?_, ?_, ?_, ?_, ?_⟩
      · simp [afterSecondPass, World.emit, ht, Party.registration]
      · rw [invocations_append, hia]
        simp [invocations]
      · rw [invocations_append, hib]
        simp [invocations, hab]
      · rw [scheduled_append]
        have h1 := List.Perm.append_right [(A.isolate, A.record.object)] hs
        simp only [Party.sched] at h1 ⊢
        simp only [scheduled, List.filterMap_cons, List.filterMap_nil]
        simp only [Nat.not_succ_le_self, if_false, List.nil_append, Nat.le_refl, if_true] at h1 ⊢
        exact h1.trans List.perm_append_comm
      · rw [deleted_append]
        have h1 := List.Perm.append_right [A.container] hd
        simp only [Party.del] at h1 ⊢
        simp only [deleted, List.filterMap_cons, List.filterMap_nil]
        simp only [Nat.not_succ_le_self, if_false, List.nil_append, Nat.le_refl, if_true] at h1 ⊢
        exact h1.trans List.perm_append_comm
  | n + 2, inv, hia, hs, hd =>
    refine ⟨w, v8.Registration.step_idle (A.registration (n + 2)) w rfl rfl, ?_⟩
    refine ⟨?_, inv.contB, inv.contO, ?_, inv.globB, inv.globO, inv.exts, inv.nxt, ?_, ?_⟩
    · simpa using inv.contA
    · simpa using inv.globA
    · intro i
      simpa [Party.queued] using inv.queue i
    · refine ⟨evs, ht, ?_, hib, ?_, ?_⟩
      · simpa using hia
      · simpa [Party.sched] using hs
      · simpa [Party.del] using hd

/-- Any schedule of the collector on two parties returns, and both have progressed by
the number of moves made on each. -/
theorem Progress.run {A B : Party} {w0 : World}
    (hab : A.container ≠ B.container) (hg : A.global ≠ B.global)
    (hkA : A.record.global = some A.global) (hkB : B.record.global = some B.global) :
    ∀ (sched : List Bool) (pa pb : Nat) (w : World), Progress A B pa pb w0 w →
      ∃ w2, v8.runSchedule sched (A.registration pa) (B.registration pb) w =
          some (A.registration (pa + sched.count true),
            B.registration (pb + sched.count false), w2) ∧
        Progress A B (pa + sched.count true) (pb + sched.count false) w0 w2 := by
  intro sched
  induction sched with
  | nil =>
    intro pa pb w inv
    exact ⟨w, rfl, inv⟩
  | cons b rest ih =>
    intro pa pb w inv
    cases b with
    | true =>
      obtain ⟨w1, hstep, inv1⟩ := inv.stepA hab hg hkA
      obtain ⟨w2, hrun, inv2⟩ := ih (pa + 1) pb w1 inv1
      have e1 : pa + (true :: rest).count true = pa + 1 + rest.count true := by
        simp only [List.count_cons_self]; omega
      have e2 : pb + (true :: rest).count false = pb + rest.count false := by
        simp
      refine ⟨w2, ?_, ?_⟩
      · rw [e1, e2]
        simp only [v8.runSchedule]
        rw [hstep]
        exact hrun
      · rw [e1, e2]
        exact inv2
    | false =>
      obtain ⟨w1, hstep, inv1⟩ := inv.swap.stepA (Ne.symm hab) (Ne.symm hg) hkB
      obtain ⟨w2, hrun, inv2⟩ := ih pa (pb + 1) w1 inv1.swap
      have e1 : pa + (false :: rest).count true = pa + rest.count true := by
        simp
      have e2 : pb + (false :: rest).count false = pb + 1 + rest.count false := by
        simp only [List.count_cons_self]; omega
      refine ⟨w2, ?_, ?_⟩
      · rw [e1, e2]
        simp only [v8.runSchedule]
        rw [hstep]
        exact hrun
      · rw [e1, e2]
        exact inv2

/-- Before the collector starts, neither party has progressed. -/
theorem Progress.start (A B : Party) (w : World)
    (hcA : w.containers A.container = some A.record)
    (hhA : w.globals A.global = some A.handle)
    (hcB : w.containers B.container = some B.record)
    (hhB : w.globals B.global = some B.handle) : Progress A B 0 0 w w where
  contA := by simpa using hcA
  contB := by simpa using hcB
  contO := fun _ _ _ => rfl
  globA := by simpa using hhA
  globB := by simpa using hhB
  globO := fun _ _ _ => rfl
  exts := rfl
  nxt := rfl
  queue := fun i => by simp [Party.queued]
  trace := ⟨[], by simp, by simp [invocations], by simp [invocations],
    by simp [scheduled, Party.sched], by simp [deleted, Party.del]⟩

/-- An invocation that returns touches no container but its parameter and no handle
object but the one its container points to. -/
theorem release_frame (info info2 : v8.WeakCallbackInfo) (w w2 : World)
    (hr : release info w = some (info2, w2)) :
    (∀ b, b ≠ info.GetParameter → w2.containers b = w.containers b) ∧
    (∀ g2, (∀ k, w.containers info.GetParameter = some k → k.global ≠ some g2) →
      w2.globals g2 = w.globals g2) := by
  cases hpass : info.firstPass with
  | true =>
    obtain ⟨k, g, h, hk, hg, _, hw⟩ := release_first_inv info info2 w w2 hpass hr
    subst hw
    refine ⟨fun b _ => rfl, fun g2 hne => ?_⟩
    have hne2 : g2 ≠ g := by
      intro e
      exact hne k hk (by rw [hg, e])
    simp [afterFirstPass, update, hne2]
  | false =>
    obtain ⟨k, _, hw⟩ := release_second_inv info info2 w w2 hpass hr
    subst hw
    refine ⟨fun b hb => ?_, fun g2 _ => rfl⟩
    have hb2 : b ≠ info.parameter := hb
    simp [afterSecondPass, update, hb2]

/-- C8: independence across containers.  Let `A` and `B` be two distinct allocated
containers whose `global` pointers name two distinct allocated handle objects.  An
invocation of `External::release` that returns, in any state and in either pass,
leaves every container other than its parameter as it was (allocated or not, with the
same fields) and leaves every handle object other than the one its container points
to as it was.  And every interleaving of the collector's two moves on `A` with its two
moves on `B` returns with the same result: both registrations released, both
containers freed and all other containers untouched, both handles empty and all
other handle objects untouched, each callback invoked in first and then second pass,
and `scheduleReleaseObject` called once for the object of `A` and once for the object
of `B`, the order of these two calls and of the two deletions being the only thing
that depends on the interleaving. -/
theorem independent_containers (A B : Party) (w : World)
    (hab : A.container ≠ B.container) (hg : A.global ≠ B.global)
    (hcA : w.containers A.container = some A.record)
    (hkA : A.record.global = some A.global)
    (hhA : w.globals A.global = some A.handle)
    (hcB : w.containers B.container = some B.record)
    (hkB : B.record.global = some B.global)
    (hhB : w.globals B.global = some B.handle) :
    (∀ (w0 w2 : World) (info info2 : v8.WeakCallbackInfo),
      release info w0 = some (info2, w2) →
      (∀ b, b ≠ info.GetParameter → w2.containers b = w0.containers b) ∧
      (∀ g2, (∀ k, w0.containers info.GetParameter = some k → k.global ≠ some g2) →
        w2.globals g2 = w0.globals g2)) ∧
    (∀ sched : List Bool, sched.count true = 2 → sched.count false = 2 →
      ∃ rA rB w2,
        v8.runSchedule sched (v8.Register A.isolate A.global A.container Callback.release)
          (v8.Register B.isolate B.global B.container Callback.release) w =
          some (rA, rB, w2) ∧
        rA.phase = v8.Phase.Released ∧ rB.phase = v8.Phase.Released ∧
        w2.containers = update (update w.containers A.container none) B.container none ∧
        w2.globals = update (update w.globals A.global (some { val := none })) B.global
          (some { val := none }) ∧
        w2.externals = w.externals ∧
        (∀ i, (w2.releaseQueue i).Perm (w.releaseQueue i ++
          ((if i = A.isolate then [A.record.object] else []) ++
           (if i = B.isolate then [B.record.object] else [])))) ∧
        invocations A.container (World.since w w2) = [true, false] ∧
        invocations B.container (World.since w w2) = [true, false] ∧
        (scheduled (World.since w w2)).Perm
          [(A.isolate, A.record.object), (B.isolate, B.record.object)] ∧
        (deleted (World.since w w2)).Perm [A.container, B.container]) := by
  refine ⟨fun w0 w2 info info2 hr => release_frame info info2 w0 w2 hr, ?_⟩
  intro sched hct hcf
  obtain ⟨w2, hrun, inv⟩ := Progress.run hab hg hkA hkB sched 0 0 w
    (Progress.start A B w hcA hhA hcB hhB)
  rw [hct, hcf] at hrun inv
  obtain ⟨evs, ht, hia, hib, hs, hd⟩ := inv.trace
  have hsince : World.since w w2 = evs := World.since_append w w2 evs ht
  refine ⟨_, _, w2, hrun, rfl, rfl, ?_, ?_, inv.exts, ?_, ?_, ?_, ?_, ?_⟩
  · funext x
    by_cases hxb : x = B.container
    · subst hxb
      simpa [update] using inv.contB
    · by_cases hxa : x = A.container
      · subst hxa
        simpa [update, hxb] using inv.contA
      · simpa [update, hxa, hxb] using inv.contO x hxa hxb
  · funext x
    by_cases hxb : x = B.global
    · subst hxb
      simpa [update] using inv.globB
    · by_cases hxa : x = A.global
      · subst hxa
        simpa [update, hxb] using inv.globA
      · simpa [update, hxa, hxb] using inv.globO x hxa hxb
  · intro i
    simpa [Party.queued] using inv.queue i
  · rw [hsince]; simpa using hia
  · rw [hsince]; simpa using hib
  · rw [hsince]; simpa [Party.sched] using hs
  · rw [hsince]; simpa [Party.del] using hd

theorem independent_containers_witness :
    sampleA.container ≠ sampleB.container ∧ sampleA.global ≠ sampleB.global ∧
    World.sampleTwo.containers sampleA.container = some sampleA.record ∧
    sampleA.record.global = some sampleA.global ∧
    World.sampleTwo.globals sampleA.global = some sampleA.handle ∧
    World.sampleTwo.containers sampleB.container = some sampleB.record ∧
    sampleB.record.global = some sampleB.global ∧
    World.sampleTwo.globals sampleB.global = some sampleB.handle ∧
    ∃ rA rB w2,
      v8.runSchedule [true, true, false, false]
        (v8.Register sampleA.isolate sampleA.global sampleA.container Callback.release)
        (v8.Register sampleB.isolate sampleB.global sampleB.container Callback.release)
        World.sampleTwo = some (rA, rB, w2) ∧
      rA.phase = v8.Phase.Released ∧ rB.phase = v8.Phase.Released ∧
      w2.containers =
        update (update World.sampleTwo.containers sampleA.container none)
          sampleB.container none ∧
      w2.globals = update (update World.sampleTwo.globals sampleA.global (some { val := none }))
        sampleB.global (some { val := none }) ∧
      w2.externals = World.sampleTwo.externals ∧
      (∀ i, (w2.releaseQueue i).Perm (World.sampleTwo.releaseQueue i ++
        ((if i = sampleA.isolate then [sampleA.record.object] else []) ++
         (if i = sampleB.isolate then [sampleB.record.object] else [])))) ∧
      invocations sampleA.container (World.since World.sampleTwo w2) = [true, false] ∧
      invocations sampleB.container (World.since World.sampleTwo w2) = [true, false] ∧
      (scheduled (World.since World.sampleTwo w2)).Perm
        [(sampleA.isolate, sampleA.record.object), (sampleB.isolate, sampleB.record.object)] ∧
      (deleted (World.since World.sampleTwo w2)).Perm [sampleA.container, sampleB.container] :=
  ⟨by decide, by decide, rfl, rfl, rfl, rfl, rfl, rfl,
    (independent_containers sampleA sampleB World.sampleTwo (by decide) (by decide)
      rfl rfl rfl rfl rfl rfl).2 [true, true, false, false] rfl rfl⟩

end rr
